import Mathlib

/-!
Verification development for the Touchstone parser of
src/NanoVNASaver/Touchstone.py.

The Python module is shallowly embedded: Python strings are Lean strings
handled through their character lists (so that str.strip, str.split,
str.lower and friends are modelled by explicit executable functions with
Python semantics), Python floats are exact fractions (the decimal
literals the parser reads are exactly representable), and every Python
runtime exception that the parsing code can raise is an explicit value of
the PyErr type.  Mutation of the Touchstone / Options objects is modelled
by explicit state passing: each operation returns the updated state
together with an optional raised exception, so partially performed
mutations before a raise are preserved, exactly as in Python.
-/

namespace NanoVNA

/-- Python whitespace characters recognised by str.strip and str.split. -/
def isPyWs (c : Char) : Bool :=
  c == ' ' || c == '\t' || c == '\n' || c == '\r' || c == '\x0b' || c == '\x0c'

/-- Characters of a string with surrounding whitespace removed (str.strip). -/
def pyStripChars (cs : List Char) : List Char :=
  ((cs.dropWhile isPyWs).reverse.dropWhile isPyWs).reverse

/-- Python str.strip(). -/
def pyStrip (s : String) : String := String.mk (pyStripChars s.data)

/-- Helper for whitespace splitting: accumulates the current word reversed. -/
def pySplitWsAux : List Char → List Char → List (List Char)
  | [], acc => if acc.isEmpty then [] else [acc.reverse]
  | c :: cs, acc =>
    if isPyWs c then
      if acc.isEmpty then pySplitWsAux cs [] else acc.reverse :: pySplitWsAux cs []
    else pySplitWsAux cs (c :: acc)

/-- Python str.split() with no argument: split on whitespace runs, no empty parts. -/
def pySplitWs (s : String) : List String :=
  (pySplitWsAux s.data []).map String.mk

/-- Whether the first list is a prefix of the second (on characters). -/
def listPrefixOf : List Char → List Char → Bool
  | [], _ => true
  | _ :: _, [] => false
  | a :: xs, b :: ys => a == b && listPrefixOf xs ys

/-- Whether the first list occurs as a contiguous sublist of the second.
Models the Python substring test p in s used on VALID_PARAMETERS. -/
def listSubOf : List Char → List Char → Bool
  | sub, [] => sub.isEmpty
  | sub, c :: rest => listPrefixOf sub (c :: rest) || listSubOf sub rest

/-- Python s.startswith(p). -/
def pyStartsWith (s p : String) : Bool := listPrefixOf p.data s.data

/-- ASCII lower-casing of one character (inputs in scope are ASCII). -/
def lowerChar (c : Char) : Char :=
  if 'A' ≤ c ∧ c ≤ 'Z' then Char.ofNat (c.toNat + 32) else c

/-- ASCII upper-casing of one character (inputs in scope are ASCII). -/
def upperChar (c : Char) : Char :=
  if 'a' ≤ c ∧ c ≤ 'z' then Char.ofNat (c.toNat - 32) else c

/-- Python str.lower() on ASCII text. -/
def pyLower (s : String) : String := String.mk (s.data.map lowerChar)

/-- Python str.upper() on ASCII text. -/
def pyUpper (s : String) : String := String.mk (s.data.map upperChar)

/-- Exact fractions standing for the Python floats handled by the parser.
All values built by the embedding have a positive denominator (a power of
ten); arithmetic is plain integer cross arithmetic, kept executable so
that concrete runs of the parser can be evaluated inside proofs.  The
lemmas frac_lt_iff_toRat and frac_le_iff_toRat below connect the
comparisons to the rational numbers these fractions denote. -/
structure Frac where
  num : Int
  den : ℕ
deriving DecidableEq

/-- Embed an integer as a fraction. -/
def Frac.ofInt (n : Int) : Frac := ⟨n, 1⟩

/-- Product of two fractions. -/
def Frac.mul (a b : Frac) : Frac := ⟨a.num * b.num, a.den * b.den⟩

/-- Negation of a fraction. -/
def Frac.neg (a : Frac) : Frac := ⟨-a.num, a.den⟩

/-- Comparison a ≤ b by cross multiplication (valid for positive denominators). -/
def Frac.le (a b : Frac) : Bool := decide (a.num * (b.den : Int) ≤ b.num * (a.den : Int))

/-- Comparison a < b by cross multiplication (valid for positive denominators). -/
def Frac.lt (a b : Frac) : Bool := decide (a.num * (b.den : Int) < b.num * (a.den : Int))

/-- The rational number a fraction denotes. -/
def Frac.toRat (a : Frac) : ℚ := (a.num : ℚ) / (a.den : ℚ)

/-- Numeric value of a decimal digit character. -/
def digitVal (c : Char) : ℕ := c.toNat - 48

/-- Value of a list of decimal digit characters. -/
def natOfDigits (cs : List Char) : ℕ :=
  cs.foldl (fun acc c => acc * 10 + digitVal c) 0

/-- Optional exponent part of a float literal applied to mantissa mant. -/
def parseExpPart (mant : Frac) (r : List Char) : Option Frac :=
  match r with
  | [] => some mant
  | e :: t =>
    if e == 'e' || e == 'E' then
      let st : Bool × List Char :=
        match t with
        | '+' :: u => (false, u)
        | '-' :: u => (true, u)
        | u => (false, u)
      let ed := st.2.takeWhile Char.isDigit
      let rest := st.2.dropWhile Char.isDigit
      if ed.isEmpty ∨ ¬ rest.isEmpty then none
      else if st.1 then some ⟨mant.num, mant.den * 10 ^ natOfDigits ed⟩
      else some ⟨mant.num * ((10 ^ natOfDigits ed : ℕ) : Int), mant.den⟩
    else none

/-- Unsigned decimal float literal: digits, optional fraction, optional exponent. -/
def parseUnsignedFloat (cs : List Char) : Option Frac :=
  let ip := cs.takeWhile Char.isDigit
  let r1 := cs.dropWhile Char.isDigit
  let fr : List Char × List Char :=
    match r1 with
    | '.' :: t => (t.takeWhile Char.isDigit, t.dropWhile Char.isDigit)
    | _ => ([], r1)
  if ip.isEmpty ∧ fr.1.isEmpty then none
  else
    parseExpPart
      ⟨((natOfDigits ip * 10 ^ fr.1.length + natOfDigits fr.1 : ℕ) : Int), 10 ^ fr.1.length⟩
      fr.2

/-- Python float(s) on the decimal literals in scope for this format
(sign, digits, fraction, exponent); none models a raised ValueError. -/
def pyFloat (s : String) : Option Frac :=
  match pyStripChars s.data with
  | '+' :: t => parseUnsignedFloat t
  | '-' :: t => (parseUnsignedFloat t).map Frac.neg
  | t => parseUnsignedFloat t

/-- Python int(s): optional sign then decimal digits only;
none models a raised ValueError. -/
def pyInt (s : String) : Option Int :=
  match pyStripChars s.data with
  | '+' :: t => if t.isEmpty ∨ ¬ (t.all Char.isDigit) then none else some (natOfDigits t : Int)
  | '-' :: t => if t.isEmpty ∨ ¬ (t.all Char.isDigit) then none else some (-(natOfDigits t : Int))
  | t => if t.isEmpty ∨ ¬ (t.all Char.isDigit) then none else some (natOfDigits t : Int)

/-- Decimal digits of n, with fuel (fuel at least n suffices). -/
def natToCharsAux : ℕ → ℕ → List Char
  | 0, _ => []
  | fuel + 1, n =>
    if n = 0 then [] else natToCharsAux fuel (n / 10) ++ [Char.ofNat (48 + n % 10)]

/-- Python str() of an integer. -/
def intStr (n : Int) : String :=
  match n with
  | .ofNat 0 => "0"
  | .ofNat m => String.mk (natToCharsAux m m)
  | .negSucc m => String.mk ('-' :: natToCharsAux (m + 1) (m + 1))

/-- Datapoint from NanoVNASaver.RFTools: the external three-field value
(frequency, real part, imaginary part) the parser constructs. -/
structure Datapoint where
  freq : Frac
  re : Frac
  im : Frac
deriving DecidableEq

/-- Python runtime exceptions the embedded code can raise.
Each constructor records, where the source message does, the offending
line or token, so that every error names its line as the source does. -/
inductive PyErr where
  /-- TypeError, message Not an option line, from Options.parse. -/
  | notOptionLine (line : String)
  /-- TypeError, message Illegial option line, from Options.parse. -/
  | illegalOptionLine (line : String)
  /-- AttributeError raised by the assignment self.factor = ... in
  Options.parse: factor is a read-only property with no setter. -/
  | attrCantSet
  /-- AttributeError raised by None.startswith when Options.parse gets
  the None that _parse_comments returns on an exhausted file. -/
  | attrNoneStartsWith
  /-- StopIteration from a next() call on an exhausted iterator. -/
  | stopIteration
  /-- ValueError from float() or int() on a malformed literal. -/
  | valueError (tok : String)
  /-- IndexError from data[0] on an empty token list. -/
  | indexError
  /-- KeyError from UNIT_TO_FACTOR lookup on an invalid unit. -/
  | keyError (k : String)
  /-- TypeError from calling cmath.polar with two arguments
  (cmath.polar takes exactly one argument). -/
  | polarArity
  /-- TypeError, message Frequeny not ascending, from Touchstone.loads. -/
  | notAscending (line : String)
  /-- TypeError, message Data values are not pairs, from Touchstone.loads. -/
  | notPairs (line : String)
  /-- TypeError, message Inconsistent number of pairs, from Touchstone.loads. -/
  | inconsistentPairs (line : String)
deriving DecidableEq

/-- Whether the exception is a Python AttributeError. -/
def PyErr.isAttributeError : PyErr → Bool
  | .attrCantSet => true
  | .attrNoneStartsWith => true
  | _ => false

/-- Whether the exception is one of the format errors of the spec
taxonomy: a TypeError raised by Options.parse about the options line. -/
def PyErr.isFormatError : PyErr → Bool
  | .notOptionLine _ => true
  | .illegalOptionLine _ => true
  | _ => false

/-- Options: the header-line settings (source class Options). -/
structure Options where
  unit : String
  parameter : String
  format : String
  resistance : Int
deriving DecidableEq

/-- UNIT_TO_FACTOR dictionary lookup; none models a KeyError, and
isSome models membership in VALID_UNITS (the dictionary keys). -/
def Options.unitToFactor (u : String) : Option Frac :=
  if u = "ghz" then some (Frac.ofInt 1000000000)
  else if u = "mhz" then some (Frac.ofInt 1000000)
  else if u = "khz" then some (Frac.ofInt 1000)
  else if u = "hz" then some (Frac.ofInt 1)
  else none

/-- The Options() default construction: GHZ, S, ma, 50 (lower-cased). -/
def Options.defaults : Options := ⟨"ghz", "s", "ma", 50⟩

/-- The factor property: UNIT_TO_FACTOR[self.unit]. -/
def Options.factor (o : Options) : Option Frac := Options.unitToFactor o.unit

/-- Python str(Options): "# {unit} {parameter} {format} r {resistance}".upper(). -/
def Options.toStr (o : Options) : String :=
  pyUpper ("# " ++ o.unit ++ " " ++ o.parameter ++ " " ++ o.format ++ " r " ++ intStr o.resistance)

/-- Token loop of Options.parse.  The four Booleans are the source flags
pfact, pparam, pformat, presist.  Faithful to the source:
- a token in VALID_UNITS with pfact unset executes self.factor = ...,
  which raises AttributeError because factor is a getter-only property
  (so pfact can never become True);
- the parameter test is the Python substring test p in "syzgh";
- the resistance branch consumes the next token via next(params), which
  raises StopIteration when exhausted, then int() which raises
  ValueError on a non-integer literal; the source never sets presist;
- anything else raises the Illegial option line TypeError. -/
def Options.parseTokens (o : Options) (line : String) :
    List String → Bool → Bool → Bool → Bool → Options × Option PyErr
  | [], _, _, _, _ => (o, none)
  | p :: rest, pfact, pparam, pformat, presist =>
    if (Options.unitToFactor p).isSome && !pfact then (o, some .attrCantSet)
    else if listSubOf p.data "syzgh".data && !pparam then
      Options.parseTokens { o with parameter := p } line rest pfact true pformat presist
    else if (p == "ma" || p == "db" || p == "ri") && !pformat then
      Options.parseTokens { o with format := p } line rest pfact pparam true presist
    else if p == "r" && !presist then
      match rest with
      | [] => (o, some .stopIteration)
      | q :: rest2 =>
        match pyInt q with
        | none => (o, some (.valueError q))
        | some n =>
          Options.parseTokens { o with resistance := n } line rest2 pfact pparam pformat presist
    else (o, some (.illegalOptionLine line))

/-- Options.parse(line).  The argument is optional because loads hands it
the return value of _parse_comments, which is None when the input has no
non-comment line; None.startswith then raises AttributeError. -/
def Options.parse (o : Options) : Option String → Options × Option PyErr
  | none => (o, some .attrNoneStartsWith)
  | some line =>
    if !(pyStartsWith line "#") then (o, some (.notOptionLine line))
    else
      Options.parseTokens o line (pySplitWs (pyLower (String.mk (line.data.drop 1))))
        false false false false

/-- Touchstone parser state: the four slot series (sdata), the comment
list and the Options object.  The filename attribute plays no part in
the parsing core and is omitted. -/
structure Touchstone where
  sdata : List (List Datapoint)
  comments : List String
  opts : Options
deriving DecidableEq

/-- A fresh Touchstone object: four empty series, no comments, default
options. -/
def Touchstone.init : Touchstone := ⟨[[], [], [], []], [], Options.defaults⟩

/-- Touchstone._parse_comments: consume leading lines that strip to a
"!" prefix, appending each stripped line to the comment list; return the
first other line (stripped) and the remaining lines, or none when the
input is exhausted (the implicit None return of the Python loop). -/
def Touchstone.parseComments :
    Touchstone → List String → Touchstone × Option String × List String
  | ts, [] => (ts, none, [])
  | ts, l :: rest =>
    let t := pyStrip l
    if pyStartsWith t "!" then
      Touchstone.parseComments { ts with comments := ts.comments ++ [t] } rest
    else (ts, some t, rest)

/-- Touchstone._append_line_data: walk the value tokens with the slot
iterator data_list = iter(self.sdata) and the value iterator
vals = iter(data).  Faithful to the source, including evaluation order:
- format ri evaluates next(data_list) first (StopIteration when the four
  slots are exhausted), then float(v), then float(next(vals)), and
  appends Datapoint(freq, v1, v2) to the slot;
- formats ma and db evaluate their float() calls and next(vals), then
  call cmath.polar with two arguments, which always raises TypeError
  (cmath.polar takes exactly one argument), so nothing is appended; for
  db the math.exp(v1 / 20) value is computed but discarded by that
  raise, so it is not modelled numerically;
- any other format string matches none of the three if statements and
  merely consumes one token per iteration (unreachable from loads, whose
  Options only ever holds a validated format). -/
def appendVals (fmt : String) (f : Frac) :
    List (List Datapoint) → List String → List (List Datapoint) × Option PyErr
  | slots, [] => (slots, none)
  | slots, v :: vs =>
    if fmt = "ri" then
      match slots with
      | [] => ([], some .stopIteration)
      | s0 :: srest =>
        match pyFloat v with
        | none => (s0 :: srest, some (.valueError v))
        | some x =>
          match vs with
          | [] => (s0 :: srest, some .stopIteration)
          | w :: vs2 =>
            match pyFloat w with
            | none => (s0 :: srest, some (.valueError w))
            | some y =>
              let r := appendVals fmt f srest vs2
              ((s0 ++ [⟨f, x, y⟩]) :: r.1, r.2)
    else if fmt = "ma" ∨ fmt = "db" then
      match pyFloat v with
      | none => (slots, some (.valueError v))
      | some _ =>
        match vs with
        | [] => (slots, some .stopIteration)
        | w :: _ =>
          match pyFloat w with
          | none => (slots, some (.valueError w))
          | some _ => (slots, some .polarArity)
    else appendVals fmt f slots vs

/-- Tokens of a data line: strip the trailing inline comment
(line.split("!")[0]) and split on whitespace. -/
def dataTokens (l : String) : List String :=
  pySplitWs (String.mk (l.data.takeWhile (fun c => c != '!')))

/-- Data-line loop of Touchstone.loads, carrying prev_freq and prev_len.
Faithful to the source order of operations: skip lines that strip to
empty; tokenize; data[0] (IndexError when there is no token); float()
on the frequency token; multiply by the factor property (KeyError on an
invalid unit; the Options object does not change inside the loop, so
looking the factor up per line is the same as in the source); ascending
check; first-line pair count fixing with the odd-count check (a line
with zero value tokens leaves prev_len at 0); later-line count check;
then _append_line_data. -/
def dataLoop (opts : Options) :
    List (List Datapoint) → Frac → ℕ → List String → List (List Datapoint) × Option PyErr
  | sd, _, _, [] => (sd, none)
  | sd, prev, plen, l :: rest =>
    if pyStrip l = "" then dataLoop opts sd prev plen rest
    else
      match dataTokens l with
      | [] => (sd, some .indexError)
      | ftok :: vals =>
        match pyFloat ftok with
        | none => (sd, some (.valueError ftok))
        | some x =>
          match Options.unitToFactor opts.unit with
          | none => (sd, some (.keyError opts.unit))
          | some fac =>
            let freq := x.mul fac
            if Frac.le freq prev then (sd, some (.notAscending l))
            else if plen = 0 then
              if vals.length % 2 = 1 then (sd, some (.notPairs l))
              else
                match appendVals opts.format freq sd vals with
                | (sd2, none) => dataLoop opts sd2 freq vals.length rest
                | (sd2, some e) => (sd2, some e)
            else if vals.length ≠ plen then (sd, some (.inconsistentPairs l))
            else
              match appendVals opts.format freq sd vals with
              | (sd2, none) => dataLoop opts sd2 freq plen rest
              | (sd2, some e) => (sd2, some e)

/-- Touchstone.loads on a text body given as its list of lines:
comment phase, options phase, data phase.  Returns the final object
state together with the raised exception, if any. -/
def Touchstone.loads (ts : Touchstone) (lines : List String) : Touchstone × Option PyErr :=
  match Touchstone.parseComments ts lines with
  | (ts1, optLine, rest) =>
    match Options.parse ts1.opts optLine with
    | (o2, some e) => ({ ts1 with opts := o2 }, some e)
    | (o2, none) =>
      let r := dataLoop o2 ts1.sdata (Frac.ofInt 0) 0 rest
      ({ ts1 with opts := o2, sdata := r.1 }, r.2)

/-- Strictly ascending frequencies, starting strictly above q, using the
comparison the code uses. -/
def ascFromB : Frac → List Datapoint → Bool
  | _, [] => true
  | q, p :: ps => Frac.lt q p.freq && ascFromB p.freq ps

/-- One slot grew by an appended suffix whose frequencies ascend
strictly from prev. -/
def relAsc (prev : Frac) (a b : List Datapoint) : Prop :=
  ∃ s, b = a ++ s ∧ ascFromB prev s = true

/-- One slot either unchanged or extended by a single point at frequency f. -/
def relPt (f : Frac) (a b : List Datapoint) : Prop :=
  b = a ∨ ∃ x y, b = a ++ [Datapoint.mk f x y]

theorem frac_lt_iff_toRat {a b : Frac} (ha : 0 < a.den) (hb : 0 < b.den) :
    Frac.lt a b = true ↔ a.toRat < b.toRat := by
  have ha' : (0 : ℚ) < (a.den : ℚ) := by exact_mod_cast ha
  have hb' : (0 : ℚ) < (b.den : ℚ) := by exact_mod_cast hb
  rw [Frac.lt, decide_eq_true_eq, Frac.toRat, Frac.toRat, div_lt_div_iff ha' hb']
  constructor
  · intro h; exact_mod_cast h
  · intro h; exact_mod_cast h

theorem frac_le_iff_toRat {a b : Frac} (ha : 0 < a.den) (hb : 0 < b.den) :
    Frac.le a b = true ↔ a.toRat ≤ b.toRat := by
  have ha' : (0 : ℚ) < (a.den : ℚ) := by exact_mod_cast ha
  have hb' : (0 : ℚ) < (b.den : ℚ) := by exact_mod_cast hb
  rw [Frac.le, decide_eq_true_eq, Frac.toRat, Frac.toRat, div_le_div_iff ha' hb']
  constructor
  · intro h; exact_mod_cast h
  · intro h; exact_mod_cast h

theorem frac_not_le_lt {a b : Frac} (h : ¬ Frac.le a b = true) : Frac.lt b a = true := by
  rw [Frac.le, decide_eq_true_eq] at h
  rw [Frac.lt, decide_eq_true_eq]
  exact not_le.mp h

theorem frac_lt_le {a b : Frac} (h : Frac.lt a b = true) : Frac.le a b = true := by
  rw [Frac.lt, decide_eq_true_eq] at h
  rw [Frac.le, decide_eq_true_eq]
  exact le_of_lt h

theorem frac_le_lt_trans {r q f : Frac} (hr : 0 < r.den) (hq : 0 < q.den)
    (h1 : Frac.le r q = true) (h2 : Frac.lt q f = true) : Frac.lt r f = true := by
  rw [Frac.le, decide_eq_true_eq] at h1
  rw [Frac.lt, decide_eq_true_eq] at h2
  rw [Frac.lt, decide_eq_true_eq]
  have hrd : (0 : ℤ) < (r.den : ℤ) := by exact_mod_cast hr
  have hqd : (0 : ℤ) < (q.den : ℤ) := by exact_mod_cast hq
  have hfd : (0 : ℤ) ≤ (f.den : ℤ) := Int.natCast_nonneg _
  nlinarith [mul_le_mul_of_nonneg_right h1 hfd, mul_lt_mul_of_pos_right h2 hrd]

theorem ascFromB_mono {r q : Frac} (hr : 0 < r.den) (hq : 0 < q.den)
    (hle : Frac.le r q = true) :
    ∀ s, ascFromB q s = true → ascFromB r s = true
  | [], h => h
  | p :: ps, h => by
    rw [ascFromB, Bool.and_eq_true] at h
    rw [ascFromB, Bool.and_eq_true]
    exact ⟨frac_le_lt_trans hr hq hle h.1, h.2⟩

theorem relAsc_refl (prev : Frac) (x : List Datapoint) : relAsc prev x x :=
  ⟨[], (List.append_nil x).symm, rfl⟩

theorem relPt_relAsc {prev f : Frac} (hlt : Frac.lt prev f = true) {a b : List Datapoint} :
    relPt f a b → relAsc prev a b := by
  rintro (rfl | ⟨x, y, rfl⟩)
  · exact relAsc_refl prev _
  · exact ⟨[⟨f, x, y⟩], rfl, by simp [ascFromB, hlt]⟩

theorem relPt_relAsc_comp {prev f : Frac} (hprev : 0 < prev.den) (hf : 0 < f.den)
    (hlt : Frac.lt prev f = true) {a b c : List Datapoint} :
    relPt f a b → relAsc f b c → relAsc prev a c := by
  rintro (rfl | ⟨x, y, rfl⟩) ⟨s, rfl, hs⟩
  · exact ⟨s, rfl, ascFromB_mono hprev hf (frac_lt_le hlt) s hs⟩
  · exact ⟨⟨f, x, y⟩ :: s, by simp, by simp [ascFromB, hlt, hs]⟩

theorem forall₂_refl_of {α : Type} {R : α → α → Prop} (h : ∀ x, R x x) :
    ∀ l : List α, List.Forall₂ R l l
  | [] => .nil
  | a :: l => .cons (h a) (forall₂_refl_of h l)

theorem forall₂_comp {α : Type} {R S T : α → α → Prop}
    (h : ∀ a b c, R a b → S b c → T a c) :
    ∀ {l1 l2 l3 : List α}, List.Forall₂ R l1 l2 → List.Forall₂ S l2 l3 →
      List.Forall₂ T l1 l3 := by
  intro l1 l2 l3 h12
  induction h12 generalizing l3 with
  | nil => intro h23; cases h23; exact .nil
  | cons hr _ ih =>
    intro h23
    cases h23 with
    | cons hs ht => exact .cons (h _ _ _ hr hs) (ih ht)

theorem parseExpPart_denPos {mant : Frac} {r : List Char} {a : Frac}
    (hm : 0 < mant.den) (h : parseExpPart mant r = some a) : 0 < a.den := by
  match r with
  | [] =>
    simp only [parseExpPart, Option.some.injEq] at h
    exact h ▸ hm
  | e :: t =>
    simp only [parseExpPart] at h
    split_ifs at h <;>
      first
        | exact Option.noConfusion h
        | (obtain rfl := Option.some.inj h
           first
             | exact hm
             | exact Nat.mul_pos hm (pow_pos (by norm_num) _))

theorem parseUnsignedFloat_denPos {cs : List Char} {a : Frac}
    (h : parseUnsignedFloat cs = some a) : 0 < a.den := by
  simp only [parseUnsignedFloat] at h
  split_ifs at h with h1
  exact parseExpPart_denPos (pow_pos (by norm_num) _) h

theorem pyFloat_denPos {s : String} {a : Frac} (h : pyFloat s = some a) : 0 < a.den := by
  simp only [pyFloat] at h
  split at h
  · exact parseUnsignedFloat_denPos h
  · rcases Option.map_eq_some'.mp h with ⟨b, hb, heq⟩
    subst heq
    simpa [Frac.neg] using parseUnsignedFloat_denPos hb
  · exact parseUnsignedFloat_denPos h

theorem unitToFactor_denPos {u : String} {f : Frac}
    (h : Options.unitToFactor u = some f) : 0 < f.den := by
  simp only [Options.unitToFactor] at h
  split_ifs at h <;>
    first
      | exact Option.noConfusion h
      | (obtain rfl := Option.some.inj h; norm_num [Frac.ofInt])

theorem relPt_refl (f : Frac) (x : List Datapoint) : relPt f x x := Or.inl rfl

theorem forall₂_relPt_refl (f : Frac) (slots : List (List Datapoint)) :
    List.Forall₂ (relPt f) slots slots :=
  forall₂_refl_of (relPt_refl f) slots

theorem forall₂_relAsc_refl (prev : Frac) (sd : List (List Datapoint)) :
    List.Forall₂ (relAsc prev) sd sd :=
  forall₂_refl_of (relAsc_refl prev) sd

theorem forall₂_relPt_comp {prev f : Frac} (hprev : 0 < prev.den) (hf : 0 < f.den)
    (hlt : Frac.lt prev f = true) {l1 l2 l3 : List (List Datapoint)}
    (h12 : List.Forall₂ (relPt f) l1 l2) (h23 : List.Forall₂ (relAsc f) l2 l3) :
    List.Forall₂ (relAsc prev) l1 l3 :=
  @forall₂_comp (List Datapoint) (relPt f) (relAsc f) (relAsc prev)
    (fun _ _ _ hab hbc => relPt_relAsc_comp hprev hf hlt hab hbc) l1 l2 l3 h12 h23

theorem appendVals_rel (fmt : String) (f : Frac) :
    ∀ (n : ℕ) (vs : List String), vs.length ≤ n → ∀ slots,
      List.Forall₂ (relPt f) slots (appendVals fmt f slots vs).1 := by
  intro n
  induction n with
  | zero =>
    intro vs hvs slots
    have hv : vs = [] := List.eq_nil_of_length_eq_zero (Nat.le_zero.mp hvs)
    subst hv
    exact forall₂_relPt_refl f slots
  | succ n ih =>
    intro vs hvs slots
    cases vs with
    | nil => exact forall₂_relPt_refl f slots
    | cons v vs' =>
      cases vs' with
      | nil =>
        cases slots with
        | nil =>
          rw [appendVals.eq_2]
          split_ifs with hri hmadb
          · exact .nil
          · cases hv : pyFloat v with
            | none => exact .nil
            | some x => exact .nil
          · rw [appendVals.eq_1]
            exact .nil
        | cons s0 srest =>
          rw [appendVals.eq_4]
          split_ifs with hri hmadb
          · cases hv : pyFloat v with
            | none => exact forall₂_relPt_refl f _
            | some x => exact forall₂_relPt_refl f _
          · cases hv : pyFloat v with
            | none => exact forall₂_relPt_refl f _
            | some x => exact forall₂_relPt_refl f _
          · rw [appendVals.eq_1]
            exact forall₂_relPt_refl f _
      | cons w vs2 =>
        have hlen2 : vs2.length ≤ n := by
          simp only [List.length_cons] at hvs
          omega
        have hlen1 : (w :: vs2).length ≤ n := by
          simp only [List.length_cons] at hvs ⊢
          omega
        cases slots with
        | nil =>
          rw [appendVals.eq_3]
          split_ifs with hri hmadb
          · exact .nil
          · cases hv : pyFloat v with
            | none => exact .nil
            | some x =>
              cases hw : pyFloat w with
              | none => exact .nil
              | some y => exact .nil
          · exact ih (w :: vs2) hlen1 []
        | cons s0 srest =>
          rw [appendVals.eq_5]
          split_ifs with hri hmadb
          · cases hv : pyFloat v with
            | none => exact forall₂_relPt_refl f _
            | some x =>
              cases hw : pyFloat w with
              | none => exact forall₂_relPt_refl f _
              | some y => exact .cons (Or.inr ⟨x, y, rfl⟩) (ih vs2 hlen2 srest)
          · cases hv : pyFloat v with
            | none => exact forall₂_relPt_refl f _
            | some x =>
              cases hw : pyFloat w with
              | none => exact forall₂_relPt_refl f _
              | some y => exact forall₂_relPt_refl f _
          · exact ih (w :: vs2) hlen1 (s0 :: srest)

theorem dataLoop_cons_step (opts : Options) (sd : List (List Datapoint)) (prev : Frac)
    (plen : ℕ) (l : String) (rest : List String) (ftok : String) (vals : List String)
    (x fac : Frac) (hne : ¬ pyStrip l = "") (htok : dataTokens l = ftok :: vals)
    (hx : pyFloat ftok = some x) (hfac : Options.unitToFactor opts.unit = some fac) :
    dataLoop opts sd prev plen (l :: rest) =
      (if Frac.le (x.mul fac) prev then (sd, some (.notAscending l))
       else if plen = 0 then
         if vals.length % 2 = 1 then (sd, some (.notPairs l))
         else
           match appendVals opts.format (x.mul fac) sd vals with
           | (sd2, none) => dataLoop opts sd2 (x.mul fac) vals.length rest
           | (sd2, some e) => (sd2, some e)
       else if vals.length ≠ plen then (sd, some (.inconsistentPairs l))
       else
         match appendVals opts.format (x.mul fac) sd vals with
         | (sd2, none) => dataLoop opts sd2 (x.mul fac) plen rest
         | (sd2, some e) => (sd2, some e)) := by
  simp only [dataLoop, if_neg hne, htok, hx, hfac]

theorem dataLoop_rel (opts : Options) :
    ∀ (n : ℕ) (lines : List String), lines.length ≤ n →
      ∀ (sd : List (List Datapoint)) (prev : Frac) (plen : ℕ), 0 < prev.den →
        List.Forall₂ (relAsc prev) sd (dataLoop opts sd prev plen lines).1 := by
  intro n
  induction n with
  | zero =>
    intro lines hlen sd prev plen _
    have hv : lines = [] := List.eq_nil_of_length_eq_zero (Nat.le_zero.mp hlen)
    subst hv
    exact forall₂_refl_of (relAsc_refl prev) sd
  | succ n ih =>
    intro lines hlen sd prev plen hprev
    cases lines with
    | nil => exact forall₂_refl_of (relAsc_refl prev) sd
    | cons l rest =>
      have hrest : rest.length ≤ n := by
        simp only [List.length_cons] at hlen
        omega
      by_cases hne : pyStrip l = ""
      · simp only [dataLoop, if_pos hne]
        exact ih rest hrest sd prev plen hprev
      · cases htok : dataTokens l with
        | nil =>
          simp only [dataLoop, if_neg hne, htok]
          exact forall₂_refl_of (relAsc_refl prev) sd
        | cons ftok vals =>
          cases hx : pyFloat ftok with
          | none =>
            simp only [dataLoop, if_neg hne, htok, hx]
            exact forall₂_refl_of (relAsc_refl prev) sd
          | some x =>
            cases hfac : Options.unitToFactor opts.unit with
            | none =>
              simp only [dataLoop, if_neg hne, htok, hx, hfac]
              exact forall₂_refl_of (relAsc_refl prev) sd
            | some fac =>
              rw [dataLoop_cons_step opts sd prev plen l rest ftok vals x fac hne htok hx hfac]
              have hfd : 0 < (x.mul fac).den :=
                Nat.mul_pos (pyFloat_denPos hx) (unitToFactor_denPos hfac)
              by_cases hle : Frac.le (x.mul fac) prev = true
              · rw [if_pos hle]
                exact forall₂_refl_of (relAsc_refl prev) sd
              · rw [if_neg hle]
                have hlt : Frac.lt prev (x.mul fac) = true := frac_not_le_lt hle
                have happrel := appendVals_rel opts.format (x.mul fac) vals.length vals le_rfl sd
                by_cases hpl : plen = 0
                · rw [if_pos hpl]
                  by_cases hodd : vals.length % 2 = 1
                  · rw [if_pos hodd]
                    exact forall₂_refl_of (relAsc_refl prev) sd
                  · rw [if_neg hodd]
                    rcases happ : appendVals opts.format (x.mul fac) sd vals with ⟨sd2, e⟩
                    rw [happ] at happrel
                    cases e with
                    | none =>
                      exact forall₂_relPt_comp hprev hfd hlt happrel
                        (ih rest hrest sd2 (x.mul fac) vals.length hfd)
                    | some e =>
                      exact happrel.imp (fun a b hab => relPt_relAsc hlt hab)
                · rw [if_neg hpl]
                  by_cases hdiff : vals.length ≠ plen
                  · rw [if_pos hdiff]
                    exact forall₂_refl_of (relAsc_refl prev) sd
                  · rw [if_neg hdiff]
                    rcases happ : appendVals opts.format (x.mul fac) sd vals with ⟨sd2, e⟩
                    rw [happ] at happrel
                    cases e with
                    | none =>
                      exact forall₂_relPt_comp hprev hfd hlt happrel
                        (ih rest hrest sd2 (x.mul fac) plen hfd)
                    | some e =>
                      exact happrel.imp (fun a b hab => relPt_relAsc hlt hab)

theorem parseComments_state (lines : List String) :
    ∀ ts : Touchstone,
      (Touchstone.parseComments ts lines).1.sdata = ts.sdata ∧
      (Touchstone.parseComments ts lines).1.opts = ts.opts ∧
      ∃ cs, (Touchstone.parseComments ts lines).1.comments = ts.comments ++ cs := by
  induction lines with
  | nil =>
    intro ts
    exact ⟨rfl, rfl, [], by simp [Touchstone.parseComments]⟩
  | cons l rest ih =>
    intro ts
    by_cases hb : pyStartsWith (pyStrip l) "!" = true
    · simp only [Touchstone.parseComments, hb, if_true]
      obtain ⟨h1, h2, cs, h3⟩ := ih { ts with comments := ts.comments ++ [pyStrip l] }
      exact ⟨h1, h2, pyStrip l :: cs, by simpa using h3⟩
    · refine ⟨?_, ?_, [], ?_⟩ <;> simp [Touchstone.parseComments, if_neg hb]

theorem parseComments_all (lines : List String) :
    ∀ ts : Touchstone, (∀ l ∈ lines, pyStartsWith (pyStrip l) "!" = true) →
      Touchstone.parseComments ts lines
        = ({ ts with comments := ts.comments ++ lines.map pyStrip }, none, []) := by
  induction lines with
  | nil =>
    intro ts _
    simp [Touchstone.parseComments]
  | cons l rest ih =>
    intro ts h
    have hb : pyStartsWith (pyStrip l) "!" = true := h l (List.mem_cons_self l rest)
    simp only [Touchstone.parseComments, hb, if_true]
    rw [ih _ (fun x hx => h x (List.mem_cons_of_mem l hx))]
    simp

theorem loads_rel (ts : Touchstone) (lines : List String) :
    List.Forall₂ (relAsc (Frac.ofInt 0)) ts.sdata (Touchstone.loads ts lines).1.sdata := by
  obtain ⟨hsd, hop, _, _⟩ := parseComments_state lines ts
  rcases hpc : Touchstone.parseComments ts lines with ⟨ts1, optLine, rest⟩
  rw [hpc] at hsd
  simp only [Touchstone.loads, hpc]
  rcases hparse : Options.parse ts1.opts optLine with ⟨o2, e⟩
  cases e with
  | none =>
    simp only
    rw [← hsd]
    exact dataLoop_rel o2 rest.length rest le_rfl ts1.sdata (Frac.ofInt 0) 0 (by norm_num [Frac.ofInt])
  | some e =>
    simp only
    rw [← hsd]
    exact forall₂_relAsc_refl _ _

theorem loads_comments (ts : Touchstone) (lines : List String) :
    ∃ cs, (Touchstone.loads ts lines).1.comments = ts.comments ++ cs := by
  obtain ⟨_, _, cs, hcm⟩ := parseComments_state lines ts
  rcases hpc : Touchstone.parseComments ts lines with ⟨ts1, optLine, rest⟩
  rw [hpc] at hcm
  simp only [Touchstone.loads, hpc]
  rcases hparse : Options.parse ts1.opts optLine with ⟨o2, e⟩
  cases e with
  | none => exact ⟨cs, hcm⟩
  | some e => exact ⟨cs, hcm⟩

/-- C1: the claim says a valid frequency-unit keyword on the options line
is recorded, the derived factor is the unit multiplier, and data
frequencies are scaled by it (MHz and 100 giving 100000000.0 Hz).  The
code instead executes self.factor = UNIT_TO_FACTOR[p], an assignment to
the read-only factor property, which raises AttributeError, so loading a
body whose options line declares MHZ fails before any data line is read
and stores nothing. -/
theorem unit_token_crashes_loads :
    Touchstone.loads Touchstone.init ["# mhz", "100 1 0"]
      = (Touchstone.init, some .attrCantSet)
    ∧ Options.parse Options.defaults (some "# mhz s ma r 50")
      = (Options.defaults, some .attrCantSet)
    ∧ PyErr.isAttributeError .attrCantSet = true := by decide

/-- C2: the claim says Options.to_string fed back into Options.parse
succeeds and reproduces the tuple.  The rendered header always begins
with the unit keyword, and parsing any unit keyword raises the
AttributeError of the factor property assignment, so the round trip
fails already on the default options value. -/
theorem options_roundtrip_crashes :
    Options.toStr Options.defaults = "# GHZ S MA R 50"
    ∧ Options.parse Options.defaults (some (Options.toStr Options.defaults))
      = (Options.defaults, some .attrCantSet) := by decide

/-- C3: the claim says db data pairs are converted via 10^(v1/20) and
polar-to-rectangular, with (0 dB, 0°) giving (1.0, 0.0) and (20 dB, 0°)
giving (10.0, 0.0).  The code instead computes math.exp(v1 / 20) and
calls cmath.polar with two arguments; cmath.polar takes exactly one
argument, so every db data line raises TypeError and nothing is
appended. -/
theorem db_conversion_crashes :
    Touchstone.loads Touchstone.init ["# s db", "1 0 0"]
      = (⟨[[], [], [], []], [], ⟨"ghz", "s", "db", 50⟩⟩, some .polarArity)
    ∧ Touchstone.loads Touchstone.init ["# s db", "1 20 0"]
      = (⟨[[], [], [], []], [], ⟨"ghz", "s", "db", 50⟩⟩, some .polarArity) := by decide

/-- C4: the claim says ma data pairs are converted by the degree-based
polar-to-rectangular transform, with (1, 0°) giving (1.0, 0.0) and
(2, 90°) giving about (0.0, 2.0).  The code calls cmath.polar with two
arguments; cmath.polar takes exactly one argument, so every ma data line
raises TypeError and nothing is appended. -/
theorem ma_conversion_crashes :
    Touchstone.loads Touchstone.init ["# s ma", "1 1 0"]
      = (⟨[[], [], [], []], [], ⟨"ghz", "s", "ma", 50⟩⟩, some .polarArity)
    ∧ Touchstone.loads Touchstone.init ["# s ma", "1 2 90"]
      = (⟨[[], [], [], []], [], ⟨"ghz", "s", "ma", 50⟩⟩, some .polarArity) := by decide

/-- C5: during one loads call every accepted data line's normalized
frequency is strictly greater than the previous one, starting from 0.0.
First conjunct: every slot of the parser grows only by a suffix of
points whose frequencies ascend strictly from 0 (so a first line at
exactly 0 Hz is never stored).  Second conjunct: a data line whose
normalized frequency is less than or equal to the running previous
frequency makes the data loop stop at once with the ordering TypeError
naming that line, leaving the series exactly as they were, so nothing
from that line or any later line is appended. -/
theorem loads_strictly_ascending (ts : Touchstone) (lines : List String) :
    List.Forall₂ (relAsc (Frac.ofInt 0)) ts.sdata (Touchstone.loads ts lines).1.sdata
    ∧ (∀ (opts : Options) (sd : List (List Datapoint)) (prev : Frac) (plen : ℕ)
         (l : String) (rest : List String) (ftok : String) (vals : List String)
         (x fac : Frac),
         ¬ pyStrip l = "" → dataTokens l = ftok :: vals → pyFloat ftok = some x →
         Options.unitToFactor opts.unit = some fac → Frac.le (x.mul fac) prev = true →
         dataLoop opts sd prev plen (l :: rest) = (sd, some (.notAscending l))) := by
  refine ⟨loads_rel ts lines, ?_⟩
  intro opts sd prev plen l rest ftok vals x fac hne htok hx hfac hle
  rw [dataLoop_cons_step opts sd prev plen l rest ftok vals x fac hne htok hx hfac, if_pos hle]

/-- C5 witness: on a concrete body the appended series ascend from 0,
and a second line repeating the frequency 1 GHz is rejected with the
ordering error naming it, the series left unchanged. -/
theorem loads_strictly_ascending_witness :
    List.Forall₂ (relAsc (Frac.ofInt 0)) Touchstone.init.sdata
      (Touchstone.loads Touchstone.init ["# s ri", "1 1 0", "1 1 0"]).1.sdata
    ∧ dataLoop ⟨"ghz", "s", "ri", 50⟩ [[], [], [], []] ⟨1000000000, 1⟩ 2 ["1 1 0"]
      = ([[], [], [], []], some (.notAscending "1 1 0")) := by
  have h := loads_strictly_ascending Touchstone.init ["# s ri", "1 1 0", "1 1 0"]
  exact ⟨h.1, h.2 ⟨"ghz", "s", "ri", 50⟩ [[], [], [], []] ⟨1000000000, 1⟩ 2 "1 1 0" []
    "1" ["1", "0"] ⟨1, 1⟩ ⟨1000000000, 1⟩ (by decide) (by decide) (by decide) (by decide)
    (by decide)⟩

/-- C6 counterexample: the claim says the first non-empty data line
fixes the expected column count and every later line with a different
count fails with a consistency error.  Here the first data line has
zero value tokens, so prev_len stays 0 and the later four-token line is
accepted (no error, its points are appended) although its count differs
from the zero count of the first line. -/
theorem zero_count_first_line_not_fixing :
    Touchstone.loads Touchstone.init ["# s ri", "5", "6 1 0 1 0"]
      = (⟨[[⟨⟨6000000000, 1⟩, ⟨1, 1⟩, ⟨0, 1⟩⟩], [⟨⟨6000000000, 1⟩, ⟨1, 1⟩, ⟨0, 1⟩⟩], [], []],
          [], ⟨"ghz", "s", "ri", 50⟩⟩, none) := by decide

/-- C6 amended: a data line with zero value tokens leaves the expected
count unfixed (prev_len stays 0) and is otherwise accepted; while the
count is unfixed, a line with an odd value-token count fails with the
pairing error and a line with an even count is handed to conversion and
fixes the count; once the count is fixed at a nonzero value, a line
passing the ascending check whose count differs fails with the
consistency error naming it, and a line matching the count is handed to
conversion.  All five facts hold for any line whose frequency parses
and passes the ascending check. -/
theorem first_nonzero_line_fixes_count
    (opts : Options) (fac : Frac) (sd : List (List Datapoint)) (prev : Frac) (plen : ℕ)
    (l : String) (rest : List String) (ftok : String) (vals : List String) (x : Frac)
    (hne : ¬ pyStrip l = "") (htok : dataTokens l = ftok :: vals)
    (hx : pyFloat ftok = some x) (hfac : Options.unitToFactor opts.unit = some fac)
    (hasc : ¬ Frac.le (x.mul fac) prev = true) :
    (plen = 0 → vals = [] →
      dataLoop opts sd prev plen (l :: rest) = dataLoop opts sd (x.mul fac) 0 rest)
    ∧ (plen = 0 → vals.length % 2 = 1 →
      dataLoop opts sd prev plen (l :: rest) = (sd, some (.notPairs l)))
    ∧ (plen = 0 → vals.length % 2 = 0 →
      dataLoop opts sd prev plen (l :: rest) =
        (match appendVals opts.format (x.mul fac) sd vals with
         | (sd2, none) => dataLoop opts sd2 (x.mul fac) vals.length rest
         | (sd2, some e) => (sd2, some e)))
    ∧ (¬ plen = 0 → ¬ vals.length = plen →
      dataLoop opts sd prev plen (l :: rest) = (sd, some (.inconsistentPairs l)))
    ∧ (¬ plen = 0 → vals.length = plen →
      dataLoop opts sd prev plen (l :: rest) =
        (match appendVals opts.format (x.mul fac) sd vals with
         | (sd2, none) => dataLoop opts sd2 (x.mul fac) plen rest
         | (sd2, some e) => (sd2, some e))) := by
  rw [dataLoop_cons_step opts sd prev plen l rest ftok vals x fac hne htok hx hfac,
    if_neg hasc]
  refine ⟨?_, ?_, ?_, ?_, ?_⟩
  · intro hp hv
    subst hp hv
    rw [if_pos rfl, if_neg (by norm_num), appendVals.eq_1]
    rfl
  · intro hp hodd
    subst hp
    rw [if_pos rfl, if_pos hodd]
  · intro hp heven
    subst hp
    rw [if_pos rfl, if_neg (by omega)]
  · intro hp hdiff
    rw [if_neg hp, if_pos hdiff]
  · intro hp heq
    rw [if_neg hp, if_neg (fun h => h heq)]

/-- C6 witness: a first data line with three value tokens is rejected
with the pairing error naming it. -/
theorem first_nonzero_line_fixes_count_witness :
    dataLoop ⟨"ghz", "s", "ri", 50⟩ [[], [], [], []] (Frac.ofInt 0) 0 ["1 1 0 1"]
      = ([[], [], [], []], some (.notPairs "1 1 0 1")) :=
  (first_nonzero_line_fixes_count ⟨"ghz", "s", "ri", 50⟩ ⟨1000000000, 1⟩ [[], [], [], []]
    (Frac.ofInt 0) 0 "1 1 0 1" [] "1" ["1", "0", "1"] ⟨1, 1⟩ (by decide) (by decide)
    (by decide) (by decide) (by decide)).2.1 rfl (by decide)

/-- C7: the claim says Options.parse raises a format error exactly for
unknown tokens, repeated categories, and a missing or non-integer
resistance value, succeeding otherwise.  The code diverges: a unit
token raises AttributeError (the factor property assignment) instead of
being consumed; a repeated r is accepted because presist is never set;
r without a following token raises StopIteration and r with a
non-integer one raises ValueError, none of which is the format
TypeError; only the unknown-token case raises the format error as
claimed. -/
theorem options_parse_error_kinds :
    Options.parse Options.defaults (some "# hz") = (Options.defaults, some .attrCantSet)
    ∧ Options.parse Options.defaults (some "# r 75 r 25")
      = ({ Options.defaults with resistance := 25 }, none)
    ∧ Options.parse Options.defaults (some "# r") = (Options.defaults, some .stopIteration)
    ∧ Options.parse Options.defaults (some "# r x")
      = (Options.defaults, some (.valueError "x"))
    ∧ Options.parse Options.defaults (some "# xhz s ma r 50")
      = (Options.defaults, some (.illegalOptionLine "# xhz s ma r 50"))
    ∧ PyErr.isFormatError .attrCantSet = false
    ∧ PyErr.isFormatError .stopIteration = false
    ∧ PyErr.isFormatError (.valueError "x") = false
    ∧ PyErr.isFormatError (.illegalOptionLine "# xhz s ma r 50") = true := by decide

/-- C8: loads only ever appends.  After one loads call every slot of the
series is its old content with a suffix appended, after a second call on
the resulting state every slot is the first-call content with a further
suffix appended (so the first body's points stay unchanged, in place,
and the second body's points follow them), and the comment list likewise
only grows; nothing is cleared or rewritten.  This holds for every
input, valid or not. -/
theorem loads_append_only (ts : Touchstone) (l1 l2 : List String) :
    List.Forall₂ (fun a b => ∃ s, b = a ++ s) ts.sdata (Touchstone.loads ts l1).1.sdata
    ∧ List.Forall₂ (fun a b => ∃ s, b = a ++ s) (Touchstone.loads ts l1).1.sdata
      (Touchstone.loads (Touchstone.loads ts l1).1 l2).1.sdata
    ∧ (∃ cs, (Touchstone.loads ts l1).1.comments = ts.comments ++ cs)
    ∧ (∃ cs, (Touchstone.loads (Touchstone.loads ts l1).1 l2).1.comments
        = (Touchstone.loads ts l1).1.comments ++ cs) := by
  refine ⟨?_, ?_, loads_comments ts l1, loads_comments _ l2⟩
  · exact (loads_rel ts l1).imp (fun a b h => by
      obtain ⟨s, hs, _⟩ := h
      exact ⟨s, hs⟩)
  · exact (loads_rel _ l2).imp (fun a b h => by
      obtain ⟨s, hs, _⟩ := h
      exact ⟨s, hs⟩)

/-- C9: when every line of the input strips to a "!" comment (including
the empty input with no lines at all), the comment phase returns no
options line, loads fails with the AttributeError raised by calling
startswith on the None handed to Options.parse, not with a format
error, and the comments read so far are retained. -/
theorem all_comment_lines_attribute_error (ts : Touchstone) (lines : List String)
    (h : ∀ l ∈ lines, pyStartsWith (pyStrip l) "!" = true) :
    (Touchstone.parseComments ts lines).2.1 = none
    ∧ Touchstone.loads ts lines
      = ({ ts with comments := ts.comments ++ lines.map pyStrip }, some .attrNoneStartsWith)
    ∧ PyErr.isAttributeError .attrNoneStartsWith = true
    ∧ PyErr.isFormatError .attrNoneStartsWith = false := by
  have hpc := parseComments_all lines ts h
  refine ⟨by rw [hpc], ?_, rfl, rfl⟩
  simp [Touchstone.loads, hpc, Options.parse]

/-- C9 witness: two comment lines are retained stripped, and the load
fails with the AttributeError, not a format error. -/
theorem all_comment_lines_attribute_error_witness :
    (Touchstone.parseComments Touchstone.init ["! a", "  ! b  "]).2.1 = none
    ∧ Touchstone.loads Touchstone.init ["! a", "  ! b  "]
      = ({ Touchstone.init with
            comments := Touchstone.init.comments ++ (["! a", "  ! b  "].map pyStrip) },
         some .attrNoneStartsWith)
    ∧ PyErr.isAttributeError .attrNoneStartsWith = true
    ∧ PyErr.isFormatError .attrNoneStartsWith = false :=
  all_comment_lines_attribute_error Touchstone.init ["! a", "  ! b  "] (by decide)

/-- C10 counterexample: the claim says every data line with more than 8
value tokens (even count) passes the pairing check and then fails with
an iterator-exhaustion error at the fifth pair, the first four pairs
already appended.  With the ma format (as with db) the code instead
raises the two-argument cmath.polar TypeError at the first pair, and
nothing at all is appended. -/
theorem ma_excess_pairs_polar_crash :
    Touchstone.loads Touchstone.init ["# s ma", "1 1 0 2 0 3 0 4 0 5 0"]
      = (⟨[[], [], [], []], [], ⟨"ghz", "s", "ma", 50⟩⟩, some .polarArity) := by decide

/-- C10 amended: for the ri format, a first data line with more than 8
value tokens and an even count passes the pairing check, appends its
first four pairs to the four slots, and then fails with StopIteration
when the fifth pair asks for a fifth slot from the exhausted four-slot
iterator. -/
theorem ri_excess_pairs_stop_iteration
    (opts : Options) (fac : Frac) (s0 s1 s2 s3 : List Datapoint) (prev : Frac)
    (l : String) (rest : List String) (ftok a1 b1 a2 b2 a3 b3 a4 b4 : String)
    (extra : List String) (xf x1 y1 x2 y2 x3 y3 x4 y4 : Frac)
    (hfmt : opts.format = "ri")
    (hne : ¬ pyStrip l = "")
    (htok : dataTokens l = ftok :: a1 :: b1 :: a2 :: b2 :: a3 :: b3 :: a4 :: b4 :: extra)
    (hex : extra ≠ [])
    (heven : extra.length % 2 = 0)
    (hf : pyFloat ftok = some xf)
    (hfac : Options.unitToFactor opts.unit = some fac)
    (hasc : ¬ Frac.le (xf.mul fac) prev = true)
    (h1 : pyFloat a1 = some x1) (h2 : pyFloat b1 = some y1)
    (h3 : pyFloat a2 = some x2) (h4 : pyFloat b2 = some y2)
    (h5 : pyFloat a3 = some x3) (h6 : pyFloat b3 = some y3)
    (h7 : pyFloat a4 = some x4) (h8 : pyFloat b4 = some y4) :
    dataLoop opts [s0, s1, s2, s3] prev 0 (l :: rest) =
      ([s0 ++ [⟨xf.mul fac, x1, y1⟩], s1 ++ [⟨xf.mul fac, x2, y2⟩],
        s2 ++ [⟨xf.mul fac, x3, y3⟩], s3 ++ [⟨xf.mul fac, x4, y4⟩]],
       some .stopIteration) := by
  have hlast : appendVals "ri" (xf.mul fac) [] extra = ([], some .stopIteration) := by
    cases extra with
    | nil => exact absurd rfl hex
    | cons e1 ex =>
      cases ex with
      | nil => rw [appendVals.eq_2, if_pos rfl]
      | cons e2 ex2 => rw [appendVals.eq_3, if_pos rfl]
  have happ : appendVals "ri" (xf.mul fac) [s0, s1, s2, s3]
      (a1 :: b1 :: a2 :: b2 :: a3 :: b3 :: a4 :: b4 :: extra)
      = ([s0 ++ [⟨xf.mul fac, x1, y1⟩], s1 ++ [⟨xf.mul fac, x2, y2⟩],
          s2 ++ [⟨xf.mul fac, x3, y3⟩], s3 ++ [⟨xf.mul fac, x4, y4⟩]],
         some .stopIteration) := by
    simp [appendVals.eq_5, h1, h2, h3, h4, h5, h6, h7, h8, hlast]
  rw [dataLoop_cons_step opts [s0, s1, s2, s3] prev 0 l rest ftok
      (a1 :: b1 :: a2 :: b2 :: a3 :: b3 :: a4 :: b4 :: extra) xf fac hne htok hf hfac,
    if_neg hasc, if_pos rfl, if_neg (by simp only [List.length_cons]; omega), hfmt, happ]

/-- C10 witness: a concrete ri line with ten value tokens appends its
first four pairs and stops with StopIteration at the fifth. -/
theorem ri_excess_pairs_stop_iteration_witness :
    dataLoop ⟨"ghz", "s", "ri", 50⟩ [[], [], [], []] (Frac.ofInt 0) 0
      ["1 1 0 2 0 3 0 4 0 5 0"]
      = ([[⟨⟨1000000000, 1⟩, ⟨1, 1⟩, ⟨0, 1⟩⟩], [⟨⟨1000000000, 1⟩, ⟨2, 1⟩, ⟨0, 1⟩⟩],
          [⟨⟨1000000000, 1⟩, ⟨3, 1⟩, ⟨0, 1⟩⟩], [⟨⟨1000000000, 1⟩, ⟨4, 1⟩, ⟨0, 1⟩⟩]],
         some .stopIteration) :=
  ri_excess_pairs_stop_iteration ⟨"ghz", "s", "ri", 50⟩ ⟨1000000000, 1⟩ [] [] [] []
    (Frac.ofInt 0) "1 1 0 2 0 3 0 4 0 5 0" [] "1" "1" "0" "2" "0" "3" "0" "4" "0"
    ["5", "0"] ⟨1, 1⟩ ⟨1, 1⟩ ⟨0, 1⟩ ⟨2, 1⟩ ⟨0, 1⟩ ⟨3, 1⟩ ⟨0, 1⟩ ⟨4, 1⟩ ⟨0, 1⟩
    rfl (by decide) (by decide) (by decide) (by decide) (by decide) (by decide)
    (by decide) (by decide) (by decide) (by decide) (by decide) (by decide)
    (by decide) (by decide) (by decide)

end NanoVNA
